import Mathlib

/-!
Shallow embedding of the hyperlane-rebalancer core (Go) in Lean 4.

Conventions of the embedding:
* Go byte slices are `List (Fin 256)`; Go strings are Lean `String`
  (all address / hex / bech32 material is ASCII, so byte length equals
  character count and Go's Unicode `strings.ToLower` agrees with the
  ASCII lowering used here).
* `math.Int` (arbitrary-precision, used for amounts) is `Int`; its
  `String()` rendering is decimal via `toString`.
* JSON documents handed to `encoding/json.Unmarshal` are modelled by the
  inductive `Blob`: the parse outcome of the string (the lexer itself is
  the Go standard library, an external collaborator).  A field absent
  from the JSON object leaves the Go zero value (`0` for `uint32`,
  `""` for `string`), which is how `Blob.obj` is to be read.
* `sdk.AccAddressFromBech32` (cosmos-sdk, external) is a parameter
  `bechDec : String → Option (List (Fin 256))` of every function that
  calls it; cosmos-sdk guarantees a decoded account address has at most
  32 bytes (`MaxAddrLen`), which appears as a hypothesis where needed.
* Fallible Go functions return `Except`/`Option`; a Go runtime panic
  (reachable in `parseAndPadAddress` through a negative slice index) is
  the explicit outcome `PadOutcome.indexOutOfRange`.
-/

namespace Rebalancer

deriving instance DecidableEq for Except

/-- Byte type: Go `byte`. -/
abbrev Byte := Fin 256

/-- Lowercase hex digit for a value below 16, as produced by Go `fmt "%x"`
and `hex.EncodeToString`. -/
def hexDigitChar (n : Nat) : Char :=
  if n < 10 then Char.ofNat (48 + n) else Char.ofNat (87 + n)

/-- Hex digit value of a character, as accepted by Go `hex.DecodeString`
(which admits both lowercase and uppercase digits). -/
def fromHexDigit (c : Char) : Option (Fin 16) :=
  let n := c.toNat
  if h : 48 ≤ n ∧ n ≤ 57 then some ⟨n - 48, by omega⟩
  else if h' : 97 ≤ n ∧ n ≤ 102 then some ⟨n - 97 + 10, by omega⟩
  else if h'' : 65 ≤ n ∧ n ≤ 70 then some ⟨n - 65 + 10, by omega⟩
  else none

/-- Two lowercase hex characters of one byte (Go `%x`). -/
def hexEncodeByte (b : Byte) : List Char :=
  [hexDigitChar (b.val / 16), hexDigitChar (b.val % 16)]

/-- Lowercase hex characters of a byte slice (Go `%x` / `hex.EncodeToString`). -/
def hexEncodeBytes : List Byte → List Char
  | [] => []
  | b :: bs => hexEncodeByte b ++ hexEncodeBytes bs

/-- Lowercase hex rendering of a byte slice as a string. -/
def hexEncode (bs : List Byte) : String :=
  String.mk (hexEncodeBytes bs)

/-- Go `hex.DecodeString` on a character list: pairs of hex digits; an odd
length or a non-hex character is an error (`none`). -/
def hexDecodeChars : List Char → Option (List Byte)
  | [] => some []
  | [_] => none
  | c1 :: c2 :: rest =>
    match fromHexDigit c1, fromHexDigit c2, hexDecodeChars rest with
    | some hi, some lo, some bs =>
      some (⟨hi.val * 16 + lo.val, by have := hi.isLt; have := lo.isLt; omega⟩ :: bs)
    | _, _, _ => none

/-- Go `hex.DecodeString`. -/
def hexDecode (s : String) : Option (List Byte) :=
  hexDecodeChars s.data

/-- Go `strings.HasPrefix`. -/
def strHasPrefix (s p : String) : Bool :=
  p.data.isPrefixOf s.data

/-- Go `strings.TrimPrefix`: drop the prefix when present, otherwise the
string unchanged. -/
def strTrimPrefix (s p : String) : String :=
  if strHasPrefix s p then String.mk (s.data.drop p.data.length) else s

/-- ASCII lowering of one character (agrees with Go `strings.ToLower` on
the ASCII addresses this program handles). -/
def lowerChar (c : Char) : Char :=
  if 65 ≤ c.toNat ∧ c.toNat ≤ 90 then Char.ofNat (c.toNat + 32) else c

/-- Go `strings.ToLower` (ASCII fragment). -/
def strToLower (s : String) : String :=
  String.mk (s.data.map lowerChar)

/-- ASCII whitespace, the fragment of Go `unicode.IsSpace` relevant here. -/
def isSpaceChar (c : Char) : Bool :=
  c == ' ' || c == '\t' || c == '\n' || c == '\r'

/-- Go `strings.TrimSpace` (ASCII fragment). -/
def strTrimSpace (s : String) : String :=
  String.mk (((s.data.dropWhile isSpaceChar).reverse.dropWhile isSpaceChar).reverse)

/-- Go `len` of a string (byte count; equals character count on the ASCII
data in play). -/
def strLength (s : String) : Nat :=
  s.data.length

/-- Go `strings.Repeat` of a single character. -/
def strRepeatChar (c : Char) (n : Nat) : String :=
  String.mk (List.replicate n c)

/-- Decimal digit run accumulated into a `Nat`; `none` on a non-digit. -/
def decDigits : List Char → Nat → Option Nat
  | [], acc => some acc
  | c :: cs, acc =>
    if 48 ≤ c.toNat ∧ c.toNat ≤ 57 then decDigits cs (acc * 10 + (c.toNat - 48))
    else none

/-- Go `math.NewIntFromString` (cosmossdk.io/math): base-10 big integer
with an optional leading sign, at least one digit.  (`math.Int` caps the
magnitude at 256 bits; no claim in play involves that bound.) -/
def parseIntString (s : String) : Option Int :=
  match s.data with
  | [] => none
  | '+' :: rest => if rest.isEmpty then none else (decDigits rest 0).map Int.ofNat
  | '-' :: rest => if rest.isEmpty then none else (decDigits rest 0).map (fun n => -(Int.ofNat n))
  | l => (decDigits l 0).map Int.ofNat

/-- Go `math.Int.String()`: decimal rendering. -/
def intToString (i : Int) : String :=
  toString i

/-- Parse outcome of a Go string handed to `encoding/json.Unmarshal`:
* `empty`     — the empty string (itself a JSON syntax error if parsed);
* `malformed` — a non-empty string that is not valid JSON;
* `obj`       — a JSON object, with each recognized field carrying the
  decoded value, or the Go zero value (`0` / `""`) when the key is
  absent from the object. -/
inductive Blob
  | empty
  | malformed
  | obj (destinationDomain : Nat) (recipient : String) (tokenID : String) (amount : String)
deriving DecidableEq, Repr

/-- RouteInfo from pkg/types (routes.go): parsed Hyperlane routing
information from custom_hook_metadata. -/
structure RouteInfo where
  destinationDomain : Nat
  recipient : String
  tokenID : String
  amount : String
deriving DecidableEq, Repr

/-- Error outcomes of `ParseCustomHookMetadata`. -/
inductive MetadataError
  | malformedJson
  | missingField (name : String)
deriving DecidableEq, Repr

/-- ParseCustomHookMetadata from pkg/types (routes.go): unmarshal the
metadata as JSON into a RouteInfo, then require destination_domain,
recipient and token_id. -/
def ParseCustomHookMetadata : Blob → Except MetadataError RouteInfo
  | .empty => .error .malformedJson
  | .malformed => .error .malformedJson
  | .obj d r t a =>
    if d = 0 then .error (.missingField "destination_domain")
    else if r = "" then .error (.missingField "recipient")
    else if t = "" then .error (.missingField "token_id")
    else .ok ⟨d, r, t, a⟩

/-- AddressWhitelist from pkg/types (config.go): map of domain ID to list
of whitelisted addresses (the Go map is an association list here). -/
structure AddressWhitelist where
  domains : List (Nat × List String)
deriving DecidableEq, Repr

/-- Config from pkg/types (config.go). -/
structure Config where
  whitelist : AddressWhitelist
deriving DecidableEq, Repr

/-- normalizeAddress from pkg/types (config.go): trim space, lowercase;
a 0x prefix, when present, is kept. -/
def normalizeAddress (addr : String) : String :=
  strToLower (strTrimSpace addr)

/-- The normalization pass of LoadConfig from pkg/types (config.go): every
whitelisted address is normalized on load (the file read and JSON decode
are external I/O). -/
def loadConfig (config : Config) : Config :=
  ⟨⟨config.whitelist.domains.map (fun p => (p.1, p.2.map normalizeAddress))⟩⟩

/-- Error outcomes of `ValidateRoute`. -/
inductive WhitelistError
  | unknownDomain (domain : Nat)
  | emptyWhitelist (domain : Nat)
  | notWhitelisted (recipient : String) (domain : Nat)
deriving DecidableEq, Repr

/-- ValidateRoute from pkg/types (config.go): the route's recipient must
be whitelisted for the destination domain. -/
def ValidateRoute (c : Config) (route : RouteInfo) : Except WhitelistError Unit :=
  match c.whitelist.domains.lookup route.destinationDomain with
  | none => .error (.unknownDomain route.destinationDomain)
  | some whitelistedAddresses =>
    if whitelistedAddresses.length = 0 then
      .error (.emptyWhitelist route.destinationDomain)
    else if whitelistedAddresses.contains (normalizeAddress route.recipient) then
      .ok ()
    else
      .error (.notWhitelisted route.recipient route.destinationDomain)

/-- HyperlaneRoute from pkg/types (routes.go).  The Go `From` field is
`fromAddress` here (`from` is reserved in Lean); `CustomHookMetadata`, a
string in Go, carries its JSON parse outcome (`Blob`). -/
structure HyperlaneRoute where
  txHash : String
  blockHeight : Int
  fromAddress : String
  amount : String
  denom : String
  customHookMetadata : Blob
  routeInfo : Option RouteInfo
deriving DecidableEq, Repr

/-- Routes from pkg/types (routes.go): a collection of HyperlaneRoute. -/
structure Routes where
  routes : List HyperlaneRoute
  totalAmount : String
  multisigAddr : String
deriving DecidableEq, Repr

/-- warptypes.MsgRemoteTransfer, the outbound Hyperlane message: the
fields the rebalancer reads and writes.  `TokenId` and `Recipient` are
32-byte `util.HexAddress` values (byte slices). -/
structure MsgRemoteTransfer where
  sender : String
  tokenId : List Byte
  destinationDomain : Nat
  recipient : List Byte
  amount : Int
  customHookMetadata : Blob
deriving DecidableEq, Repr

/-- Error outcomes of `parseTokenID`. -/
inductive TokenIDError
  | invalidHex
  | invalidLength (got : Nat)
deriving DecidableEq, Repr

/-- parseTokenID from pkg/generator (generator.go): strip an optional 0x
prefix, hex-decode, and require exactly 32 bytes. -/
def parseTokenID (tokenIDStr : String) : Except TokenIDError (List Byte) :=
  match hexDecode (strTrimPrefix tokenIDStr "0x") with
  | none => .error .invalidHex
  | some tokenID =>
    if tokenID.length ≠ 32 then .error (.invalidLength tokenID.length)
    else .ok tokenID

/-- Outcome of `parseAndPadAddress`.  The Go function has no length
check: it runs `copy(paddedAddr[32-len(addrBytes):], addrBytes)`, whose
slice lower bound is negative whenever the decoded address exceeds 32
bytes, a runtime panic — modelled as `indexOutOfRange`. -/
inductive PadOutcome
  | ok (bytes : List Byte)
  | invalidHexAddress
  | invalidBech32
  | indexOutOfRange
deriving DecidableEq, Repr

/-- The padding step of parseAndPadAddress from pkg/generator
(generator.go): left-pad into a fresh 32-byte buffer; a source longer
than 32 bytes makes the Go copy target `paddedAddr[32-len:]` panic. -/
def padTo32 (addrBytes : List Byte) : PadOutcome :=
  if addrBytes.length ≤ 32 then
    .ok (List.replicate (32 - addrBytes.length) (0 : Byte) ++ addrBytes)
  else
    .indexOutOfRange

/-- parseAndPadAddress from pkg/generator (generator.go): hex-decode a
0x-prefixed EVM address, otherwise bech32-decode a Cosmos address, and
pad the bytes to 32. -/
def parseAndPadAddress (bechDec : String → Option (List Byte)) (addrStr : String) : PadOutcome :=
  if strHasPrefix addrStr "0x" then
    match hexDecode (strTrimPrefix addrStr "0x") with
    | none => .invalidHexAddress
    | some decoded => padTo32 decoded
  else
    match bechDec addrStr with
    | none => .invalidBech32
    | some addrBytes => padTo32 addrBytes

/-- Error outcomes of `Generate` (each wraps the offending route's tx
hash, as the Go fmt.Errorf messages do). -/
inductive GenError
  | noRouteInfo (txHash : String)
  | invalidAmount (amount : String) (txHash : String)
  | invalidTokenID (txHash : String)
  | invalidRecipient (txHash : String)
deriving DecidableEq, Repr

/-- Result of `Generate`: the message list, a returned error, or the
runtime panic propagated out of `parseAndPadAddress`. -/
inductive GenResult
  | ok (msgs : List MsgRemoteTransfer)
  | error (e : GenError)
  | indexOutOfRange
deriving DecidableEq, Repr

/-- The per-route loop of Generate from pkg/generator (generator.go),
processing routes in order and stopping at the first failure. -/
def GenerateAux (bechDec : String → Option (List Byte)) (multisigAddr : String) :
    List HyperlaneRoute → GenResult
  | [] => .ok []
  | route :: rest =>
    match route.routeInfo with
    | none => .error (.noRouteInfo route.txHash)
    | some ri =>
      match parseIntString route.amount with
      | none => .error (.invalidAmount route.amount route.txHash)
      | some amount =>
        match parseTokenID ri.tokenID with
        | .error _ => .error (.invalidTokenID route.txHash)
        | .ok tokenID =>
          match parseAndPadAddress bechDec ri.recipient with
          | .invalidHexAddress => .error (.invalidRecipient route.txHash)
          | .invalidBech32 => .error (.invalidRecipient route.txHash)
          | .indexOutOfRange => .indexOutOfRange
          | .ok recipient =>
            match GenerateAux bechDec multisigAddr rest with
            | .ok msgs => .ok ({ sender := multisigAddr
                               , tokenId := tokenID
                               , destinationDomain := ri.destinationDomain
                               , recipient := recipient
                               , amount := amount
                               , customHookMetadata := .empty } :: msgs)
            | e => e

/-- Generate from pkg/generator (generator.go): create MsgRemoteTransfer
messages from parsed routes.  Note that the amount parsed is
`route.Amount`, the route's own amount field. -/
def Generate (bechDec : String → Option (List Byte)) (multisigAddr : String)
    (routes : Routes) : GenResult :=
  GenerateAux bechDec multisigAddr routes.routes

/-- MatchesRoute from pkg/verifier (verifier.go).  The Go code
dereferences `route.RouteInfo` unconditionally (a nil route panics; the
only caller, Verify, filters those out first) — modelled as `false`.
In the bech32 branch the cosmos-sdk decoder never yields more than 32
bytes (MaxAddrLen); a longer result would make the Go padding panic and
is modelled as keeping the unpadded expected string (a non-match). -/
def MatchesRoute (bechDec : String → Option (List Byte))
    (msg : MsgRemoteTransfer) (route : HyperlaneRoute) : Bool :=
  match route.routeInfo with
  | none => false
  | some ri =>
    if msg.destinationDomain ≠ ri.destinationDomain then false
    else
      let expectedAmount := if ri.amount ≠ "" then ri.amount else route.amount
      if intToString msg.amount ≠ expectedAmount then false
      else
        let msgTokenIDHex := hexEncode msg.tokenId
        let expectedTokenIDHex := strTrimPrefix (strToLower ri.tokenID) "0x"
        if msgTokenIDHex ≠ expectedTokenIDHex then false
        else
          let msgRecipientHex := hexEncode msg.recipient
          let lowered := strTrimPrefix (strToLower ri.recipient) "0x"
          let expectedRecipientHex :=
            if strHasPrefix ri.recipient "0x" then
              match hexDecode lowered with
              | some recipientBytes =>
                if recipientBytes.length < 32 then
                  hexEncode (List.replicate (32 - recipientBytes.length) (0 : Byte) ++ recipientBytes)
                else lowered
              | none => lowered
            else
              match bechDec ri.recipient with
              | some addr =>
                if addr.length ≤ 32 then
                  hexEncode (List.replicate (32 - addr.length) (0 : Byte) ++ addr)
                else lowered
              | none => lowered
          msgRecipientHex = expectedRecipientHex

/-- Error entries appended to a verification result, carrying the data
the Go fmt.Sprintf strings interpolate. -/
inductive VerifyError
  | countMismatch (msgCount : Nat) (routeCount : Nat)
  | noRouteInfo (index : Nat) (txHash : String)
  | noMatch (index : Nat) (txHash : String) (domain : Nat) (amount : String)
deriving DecidableEq, Repr

/-- VerifyResult from pkg/verifier (verifier.go). -/
structure VerifyResult where
  valid : Bool
  matchedCount : Nat
  totalRoutes : Nat
  errors : List VerifyError
  warnings : List String
deriving DecidableEq, Repr

/-- The per-route loop of Verify from pkg/verifier (verifier.go): a route
without RouteInfo is an error; otherwise the first matching candidate
message counts as the match. -/
def VerifyLoop (bechDec : String → Option (List Byte))
    (remoteTxs : List MsgRemoteTransfer) :
    List (Nat × HyperlaneRoute) → VerifyResult → VerifyResult
  | [], result => result
  | (i, route) :: rest, result =>
    match route.routeInfo with
    | none =>
      VerifyLoop bechDec remoteTxs rest
        { result with valid := false
                    , errors := result.errors ++ [.noRouteInfo i route.txHash] }
    | some ri =>
      match remoteTxs.find? (fun msg => MatchesRoute bechDec msg route) with
      | some _ =>
        VerifyLoop bechDec remoteTxs rest
          { result with matchedCount := result.matchedCount + 1 }
      | none =>
        VerifyLoop bechDec remoteTxs rest
          { result with valid := false
                      , errors := result.errors ++
                          [.noMatch i route.txHash ri.destinationDomain route.amount] }

/-- Verify from pkg/verifier (verifier.go), on the already-decoded
candidate message list (the protobuf decode of the transaction body is
external): count check, then the per-route matching loop. -/
def Verify (bechDec : String → Option (List Byte)) (routes : Routes)
    (remoteTxs : List MsgRemoteTransfer) : VerifyResult :=
  let result0 : VerifyResult :=
    { valid := true, matchedCount := 0, totalRoutes := routes.routes.length
    , errors := [], warnings := [] }
  let result1 :=
    if remoteTxs.length ≠ routes.routes.length then
      { result0 with valid := false
                   , errors := result0.errors ++
                       [.countMismatch remoteTxs.length routes.routes.length] }
    else result0
  VerifyLoop bechDec remoteTxs routes.routes.enum result1

/-- sdk.Coin: denomination and arbitrary-precision amount. -/
structure Coin where
  denom : String
  amount : Int
deriving DecidableEq, Repr

/-- banktypes.MsgSend: the fields the rebalancer reads. -/
structure MsgSend where
  fromAddress : String
  toAddress : String
  amount : List Coin
deriving DecidableEq, Repr

/-- One decoded sub-message of a transaction body, discriminated the way
the Go code switches on `TypeUrl` (a message of any other type, or one
whose payload fails to unmarshal, is skipped either way: `other`). -/
inductive TxMsg
  | remote (m : MsgRemoteTransfer)
  | send (m : MsgSend)
  | other
deriving DecidableEq, Repr

/-- Transaction from pkg/client (client.go): hash, height, memo and the
decoded body messages (a nil Tx or nil Body is an empty message list). -/
structure Transaction where
  hash : String
  blockHeight : Int
  memo : Blob
  msgs : List TxMsg
deriving DecidableEq, Repr

/-- RoutingMetadata from pkg/client (client.go): routing information in a
transaction memo. -/
structure RoutingMetadata where
  destinationDomain : Nat
  recipient : String
  tokenID : String
deriving DecidableEq, Repr

/-- json.Unmarshal of a memo string into RoutingMetadata: succeeds on any
JSON object (absent keys leave zero values, unknown keys are ignored). -/
def unmarshalRoutingMetadata : Blob → Option RoutingMetadata
  | .obj d r t _ => some ⟨d, r, t⟩
  | _ => none

/-- HyperlaneTransfer from pkg/client (client.go): a MsgRemoteTransfer or
memo-routed bank send, with addresses rendered as strings. -/
structure HyperlaneTransfer where
  fromAddress : String
  toAddress : String
  amount : String
  destinationDomain : Nat
  tokenID : String
  customHookMetadata : Blob
deriving DecidableEq, Repr

/-- The per-message body of ExtractHyperlaneTransfers from pkg/client
(client.go): a MsgRemoteTransfer always yields a transfer; a MsgSend
yields one only when the memo carried routing metadata and the coin list
is non-empty (then only the first coin's amount is used). -/
def extractTransferOfMsg (routingMeta : Option RoutingMetadata) : TxMsg → Option HyperlaneTransfer
  | .remote m =>
    some { fromAddress := m.sender
         , toAddress := "0x" ++ hexEncode m.recipient
         , amount := intToString m.amount
         , destinationDomain := m.destinationDomain
         , tokenID := "0x" ++ hexEncode m.tokenId
         , customHookMetadata := m.customHookMetadata }
  | .send m =>
    match routingMeta with
    | none => none
    | some meta =>
      match m.amount with
      | [] => none
      | coin :: _ =>
        some { fromAddress := m.toAddress
             , toAddress := meta.recipient
             , amount := intToString coin.amount
             , destinationDomain := meta.destinationDomain
             , tokenID := meta.tokenID
             , customHookMetadata := .empty }
  | .other => none

/-- ExtractHyperlaneTransfers from pkg/client (client.go): parse the memo
once (only when non-empty; a memo that fails to parse means no routing
metadata), then walk the messages. -/
def ExtractHyperlaneTransfers (txn : Transaction) : List HyperlaneTransfer :=
  let routingMeta := if txn.memo ≠ Blob.empty then unmarshalRoutingMetadata txn.memo else none
  txn.msgs.filterMap (extractTransferOfMsg routingMeta)

/-- The target-address canonicalization of
FilterHyperlaneTransfersToAddress from pkg/client (client.go): a
non-0x address is bech32-decoded and hand-padded to 66 hex characters;
a failed decode leaves the empty string. -/
def filterTargetHex (bechDec : String → Option (List Byte)) (targetAddress : String) : String :=
  if strHasPrefix targetAddress "0x" then targetAddress
  else
    match bechDec targetAddress with
    | some addr =>
      let t := "0x" ++ hexEncode addr
      if strLength t < 66 then
        "0x" ++ strRepeatChar '0' (66 - strLength t) ++ String.mk (t.data.drop 2)
      else t
    | none => ""

/-- FilterHyperlaneTransfersToAddress from pkg/client (client.go): keep
transactions with some transfer touching the target address, compared
lowercased in hex or bech32 form. -/
def FilterHyperlaneTransfersToAddress (bechDec : String → Option (List Byte))
    (txs : List Transaction) (targetAddress : String) : List Transaction :=
  let targetHex := filterTargetHex bechDec targetAddress
  let target := strToLower targetHex
  let targetBech32 := strToLower targetAddress
  txs.filter (fun tx =>
    (ExtractHyperlaneTransfers tx).any (fun transfer =>
      let transferTo := strToLower transfer.toAddress
      let transferFrom := strToLower transfer.fromAddress
      transferTo == target || transferFrom == targetBech32 || transferTo == targetBech32))

/-- The RouteInfo resolution step of ParseRoutes from pkg/parser
(parser.go): non-empty custom hook metadata is parsed (a failure skips
the message); otherwise a transfer with a non-zero destination domain
(the memo-routed bank-send case) supplies the fields directly; otherwise
there is no routing information. -/
def resolveRouteInfo (transfer : HyperlaneTransfer) : Option RouteInfo :=
  if transfer.customHookMetadata ≠ Blob.empty then
    (ParseCustomHookMetadata transfer.customHookMetadata).toOption
  else if transfer.destinationDomain ≠ 0 then
    some ⟨transfer.destinationDomain, transfer.toAddress, transfer.tokenID, ""⟩
  else
    none

/-- The per-transfer body of the ParseRoutes loop from pkg/parser
(parser.go): sender check, RouteInfo resolution, optional whitelist
validation, amount-override application, route construction.  Every
failure is a skip (`none`), never a fatal error. -/
def transferRoute (config : Option Config) (multisigAddr : String)
    (tx : Transaction) (transfer : HyperlaneTransfer) : Option HyperlaneRoute :=
  if transfer.fromAddress ≠ multisigAddr then none
  else
    match resolveRouteInfo transfer with
    | none => none
    | some routeInfo =>
      let whitelisted :=
        match config with
        | some c => match ValidateRoute c routeInfo with
          | .ok _ => true
          | .error _ => false
        | none => true
      if whitelisted then
        let amount := if routeInfo.amount ≠ "" then routeInfo.amount else transfer.amount
        some { txHash := tx.hash
             , blockHeight := tx.blockHeight
             , fromAddress := transfer.fromAddress
             , amount := amount
             , denom := "utia"
             , customHookMetadata := transfer.customHookMetadata
             , routeInfo := some routeInfo }
      else none

/-- All routes one transaction contributes in ParseRoutes. -/
def txRoutes (config : Option Config) (multisigAddr : String)
    (tx : Transaction) : List HyperlaneRoute :=
  (ExtractHyperlaneTransfers tx).filterMap (transferRoute config multisigAddr tx)

/-- The running-total accumulation of ParseRoutes from pkg/parser
(parser.go): each emitted route's amount string is parsed and added when
it parses, contributing nothing otherwise. -/
def sumRouteAmounts (routes : List HyperlaneRoute) : Int :=
  routes.foldl
    (fun acc r => match parseIntString r.amount with
      | some i => acc + i
      | none => acc) 0

/-- ParseRoutes from pkg/parser (parser.go), downstream of the (external,
fatal-on-failure) height-range query: filter to transactions touching
the multisig, then extract, validate and emit routes with a running
total.  After the query there is no fatal path: the result is always a
`Routes` value. -/
def ParseRoutes (bechDec : String → Option (List Byte)) (config : Option Config)
    (multisigAddr : String) (txs : List Transaction) : Routes :=
  let filtered := FilterHyperlaneTransfersToAddress bechDec txs multisigAddr
  let routes := filtered.flatMap (txRoutes config multisigAddr)
  { routes := routes
  , totalAmount := intToString (sumRouteAmounts routes)
  , multisigAddr := multisigAddr }

theorem strData_append (a b : String) : (a ++ b).data = a.data ++ b.data := rfl

theorem strMk_data (s : String) : String.mk s.data = s := rfl

theorem strHasPrefix_append_left (p t : String) : strHasPrefix (p ++ t) p = true := by
  simp [strHasPrefix, strData_append, List.isPrefixOf_iff_prefix]

theorem strTrimPrefix_append_left (p t : String) : strTrimPrefix (p ++ t) p = t := by
  simp [strTrimPrefix, strHasPrefix_append_left, strData_append, List.drop_left, strMk_data]

theorem fromHexDigit_hexDigitChar :
    ∀ k : Fin 16, fromHexDigit (hexDigitChar k.val) = some k := by
  decide

theorem hexDecodeChars_hexEncodeBytes (bs : List Byte) :
    hexDecodeChars (hexEncodeBytes bs) = some bs := by
  induction bs with
  | nil => rfl
  | cons b bs ih =>
    have hb := b.isLt
    have h1 : fromHexDigit (hexDigitChar (b.val / 16)) = some ⟨b.val / 16, by omega⟩ :=
      fromHexDigit_hexDigitChar ⟨b.val / 16, by omega⟩
    have h2 : fromHexDigit (hexDigitChar (b.val % 16)) = some ⟨b.val % 16, by omega⟩ :=
      fromHexDigit_hexDigitChar ⟨b.val % 16, by omega⟩
    have hby : (⟨b.val / 16 * 16 + b.val % 16, by omega⟩ : Byte) = b := by
      apply Fin.ext
      show b.val / 16 * 16 + b.val % 16 = b.val
      omega
    show hexDecodeChars
        (hexDigitChar (b.val / 16) :: hexDigitChar (b.val % 16) :: hexEncodeBytes bs) =
      some (b :: bs)
    simp only [hexDecodeChars, h1, h2, ih, hby]

theorem hexDecode_hexEncode (bs : List Byte) : hexDecode (hexEncode bs) = some bs := by
  simpa [hexDecode, hexEncode] using hexDecodeChars_hexEncodeBytes bs

/-- C2: for decoded address forms longer than 32 bytes the code does not
return an `AddressTooLong` error — it has no length check at all and the
Go `copy(paddedAddr[32-len:], ...)` panics with a negative slice index
(`indexOutOfRange` in this embedding); for forms of at most 32 bytes the
function does return exactly 32 bytes, left-zero-padded. -/
theorem parseAndPadAddress_long_input_panics :
    parseAndPadAddress (fun _ => none) ("0x" ++ hexEncode (List.replicate 33 (0 : Byte))) =
      PadOutcome.indexOutOfRange ∧
    parseAndPadAddress (fun _ => none) ("0x" ++ hexEncode (List.replicate 32 (0 : Byte))) =
      PadOutcome.ok (List.replicate 32 (0 : Byte)) ∧
    parseAndPadAddress (fun _ => none) ("0x" ++ hexEncode (List.replicate 20 (7 : Byte))) =
      PadOutcome.ok (List.replicate 12 (0 : Byte) ++ List.replicate 20 (7 : Byte)) :=
  ⟨by decide, by decide, by decide⟩

/-- C9: for any 20-byte address, feeding `parseAndPadAddress` the 0x-hex
rendering and feeding it a bech32 rendering (any string the bech32
account decoder maps to the same bytes) produce the same canonical
result: 12 zero bytes followed by the 20 address bytes. -/
theorem roundTrip_canonicalization (bechDec : String → Option (List Byte))
    (addr : List Byte) (bech32Form : String)
    (hlen : addr.length = 20)
    (hpfx : strHasPrefix bech32Form "0x" = false)
    (hdec : bechDec bech32Form = some addr) :
    parseAndPadAddress bechDec ("0x" ++ hexEncode addr) =
      PadOutcome.ok (List.replicate 12 (0 : Byte) ++ addr) ∧
    parseAndPadAddress bechDec bech32Form =
      PadOutcome.ok (List.replicate 12 (0 : Byte) ++ addr) := by
  constructor
  · unfold parseAndPadAddress
    rw [strHasPrefix_append_left, strTrimPrefix_append_left]
    simp [hexDecode_hexEncode, padTo32, hlen]
  · unfold parseAndPadAddress
    rw [hpfx]
    simp [hdec, padTo32, hlen]

/-- Concrete 20-byte address for the C9 witness. -/
def w9addr : List Byte := List.replicate 20 (7 : Byte)

/-- Concrete bech32 account decoder for the C9 witness. -/
def w9dec : String → Option (List Byte) :=
  fun s => if s = "celestia1w" then some w9addr else none

theorem roundTrip_canonicalization_witness :
    parseAndPadAddress w9dec ("0x" ++ hexEncode w9addr) =
      PadOutcome.ok (List.replicate 12 (0 : Byte) ++ w9addr) ∧
    parseAndPadAddress w9dec "celestia1w" =
      PadOutcome.ok (List.replicate 12 (0 : Byte) ++ w9addr) :=
  roundTrip_canonicalization w9dec w9addr "celestia1w" (by decide) (by decide) (by decide)

/-- C6: `ParseCustomHookMetadata` fails on JSON syntax errors; after a
successful JSON parse it fails with a missing-field error exactly when
destination_domain is 0, recipient is empty or token_id is empty; with
all three present an absent amount key (Go zero value `""`) leaves the
override unset, not `"0"`. -/
theorem parseCustomHookMetadata_fields (d : Nat) (r t a : String) :
    ParseCustomHookMetadata Blob.malformed = .error .malformedJson ∧
    ParseCustomHookMetadata Blob.empty = .error .malformedJson ∧
    (d = 0 →
      ParseCustomHookMetadata (.obj d r t a) = .error (.missingField "destination_domain")) ∧
    (d ≠ 0 → r = "" →
      ParseCustomHookMetadata (.obj d r t a) = .error (.missingField "recipient")) ∧
    (d ≠ 0 → r ≠ "" → t = "" →
      ParseCustomHookMetadata (.obj d r t a) = .error (.missingField "token_id")) ∧
    (d ≠ 0 → r ≠ "" → t ≠ "" →
      ParseCustomHookMetadata (.obj d r t a) = .ok ⟨d, r, t, a⟩) ∧
    (d ≠ 0 → r ≠ "" → t ≠ "" →
      ParseCustomHookMetadata (.obj d r t "") = .ok ⟨d, r, t, ""⟩ ∧ ("" : String) ≠ "0") := by
  refine ⟨rfl, rfl, ?_, ?_, ?_, ?_, ?_⟩
  · intro h0
    simp [ParseCustomHookMetadata, h0]
  · intro h0 hr
    simp [ParseCustomHookMetadata, h0, hr]
  · intro h0 hr ht
    simp [ParseCustomHookMetadata, h0, hr, ht]
  · intro h0 hr ht
    simp [ParseCustomHookMetadata, h0, hr, ht]
  · intro h0 hr ht
    exact ⟨by simp [ParseCustomHookMetadata, h0, hr, ht], by decide⟩

theorem parseCustomHookMetadata_fields_witness :
    ParseCustomHookMetadata (.obj 0 "a" "b" "") = .error (.missingField "destination_domain") ∧
    ParseCustomHookMetadata (.obj 9 "" "b" "") = .error (.missingField "recipient") ∧
    ParseCustomHookMetadata (.obj 9 "a" "" "") = .error (.missingField "token_id") ∧
    ParseCustomHookMetadata (.obj 9 "a" "b" "7") = .ok ⟨9, "a", "b", "7"⟩ ∧
    ParseCustomHookMetadata (.obj 9 "a" "b" "") = .ok ⟨9, "a", "b", ""⟩ :=
  ⟨(parseCustomHookMetadata_fields 0 "a" "b" "").2.2.1 rfl,
   (parseCustomHookMetadata_fields 9 "" "b" "").2.2.2.1 (by decide) rfl,
   (parseCustomHookMetadata_fields 9 "a" "" "").2.2.2.2.1 (by decide) (by decide) rfl,
   (parseCustomHookMetadata_fields 9 "a" "b" "7").2.2.2.2.2.1 (by decide) (by decide) (by decide),
   ((parseCustomHookMetadata_fields 9 "a" "b" "x").2.2.2.2.2.2 (by decide) (by decide) (by decide)).1⟩

/-- C10: in the memo-fallback path, a bank send with an empty coin list
contributes no transfer even when routing metadata is present in the
memo, and with two or more coins only the first coin's amount becomes
the transfer amount. -/
theorem memo_fallback_coins (hsh : String) (bh : Int) (dd : Nat) (r t a : String)
    (m : MsgSend) :
    (m.amount = [] →
      ExtractHyperlaneTransfers ⟨hsh, bh, .obj dd r t a, [.send m]⟩ = []) ∧
    (∀ coin rest, m.amount = coin :: rest →
      ExtractHyperlaneTransfers ⟨hsh, bh, .obj dd r t a, [.send m]⟩ =
        [⟨m.toAddress, r, intToString coin.amount, dd, t, .empty⟩]) := by
  constructor
  · intro h
    simp [ExtractHyperlaneTransfers, unmarshalRoutingMetadata, extractTransferOfMsg, h]
  · intro coin rest h
    simp [ExtractHyperlaneTransfers, unmarshalRoutingMetadata, extractTransferOfMsg, h]

theorem memo_fallback_coins_witness :
    ExtractHyperlaneTransfers ⟨"h", 1, .obj 2 "r" "t" "", [.send ⟨"a", "ms", []⟩]⟩ = [] ∧
    ExtractHyperlaneTransfers
        ⟨"h", 1, .obj 2 "r" "t" "", [.send ⟨"a", "ms", [⟨"utia", 5⟩, ⟨"x", 6⟩]⟩]⟩ =
      [⟨"ms", "r", "5", 2, "t", .empty⟩] :=
  ⟨(memo_fallback_coins "h" 1 2 "r" "t" "" ⟨"a", "ms", []⟩).1 rfl,
   (memo_fallback_coins "h" 1 2 "r" "t" "" ⟨"a", "ms", [⟨"utia", 5⟩, ⟨"x", 6⟩]⟩).2
     ⟨"utia", 5⟩ [⟨"x", 6⟩] rfl⟩

/-- Route with base amount 1000000 and RouteInfo amount override 500000,
token id 32 one-bytes, recipient 20 seven-bytes (hex form). -/
def c1route : HyperlaneRoute :=
  { txHash := "TX1", blockHeight := 100, fromAddress := "celestia1m", amount := "1000000"
  , denom := "utia", customHookMetadata := .empty
  , routeInfo := some ⟨973, "0x" ++ hexEncode (List.replicate 20 7)
                     , "0x" ++ hexEncode (List.replicate 32 1), "500000"⟩ }

/-- The routeInfo payload of `c1route`. -/
def c1ri : RouteInfo :=
  ⟨973, "0x" ++ hexEncode (List.replicate 20 7)
  , "0x" ++ hexEncode (List.replicate 32 1), "500000"⟩

/-- The message Generate produces from `c1route`: its amount is the base
amount 1000000, not the override 500000. -/
def c1msg : MsgRemoteTransfer :=
  { sender := "celestia1m", tokenId := List.replicate 32 1, destinationDomain := 973
  , recipient := List.replicate 12 0 ++ List.replicate 20 7, amount := 1000000
  , customHookMetadata := .empty }

/-- C1 counterexample: on a route with base amount A = 1000000 and
override B = 500000, `Generate` emits a message whose amount is A, not
B — and `MatchesRoute` (which does use B) therefore rejects the very
message `Generate` produced. -/
theorem generate_ignores_override_cex :
    Generate (fun _ => none) "celestia1m" ⟨[c1route], "1000000", "celestia1m"⟩ =
      .ok [c1msg] ∧
    c1msg.amount = 1000000 ∧
    (1000000 : Int) ≠ 500000 ∧
    MatchesRoute (fun _ => none) c1msg c1route = false :=
  ⟨by decide, rfl, by decide, by decide⟩

/-- Amount comparison performed by `MatchesRoute`: a match forces the
message amount to render equal to the override when present, else to the
route's base amount. -/
theorem matchesRoute_amount (bechDec : String → Option (List Byte))
    (msg : MsgRemoteTransfer) (route : HyperlaneRoute) (ri : RouteInfo)
    (hri : route.routeInfo = some ri)
    (hm : MatchesRoute bechDec msg route = true) :
    intToString msg.amount = (if ri.amount ≠ "" then ri.amount else route.amount) := by
  simp only [MatchesRoute, hri] at hm
  by_cases h1 : msg.destinationDomain ≠ ri.destinationDomain
  · rw [if_pos h1] at hm
    cases hm
  · rw [if_neg h1] at hm
    by_cases h2 : intToString msg.amount ≠ (if ri.amount ≠ "" then ri.amount else route.amount)
    · rw [if_pos h2] at hm
      cases hm
    · exact not_not.mp h2

/-- C1 amended: when the override B is present, `MatchesRoute` compares
the candidate amount against B, never the base amount A; `Generate`,
however, parses the route's base amount field and emits A (extraction
writes the effective amount into that field, so pipeline-produced routes
carry B there, but Generate itself never consults the override). -/
theorem amount_override_amended (bechDec : String → Option (List Byte))
    (route : HyperlaneRoute) (ri : RouteInfo)
    (hri : route.routeInfo = some ri) (hov : ri.amount ≠ "") :
    (∀ msg, MatchesRoute bechDec msg route = true → intToString msg.amount = ri.amount) ∧
    (∀ a tid rec ms ta,
      parseIntString route.amount = some a →
      parseTokenID ri.tokenID = .ok tid →
      parseAndPadAddress bechDec ri.recipient = .ok rec →
      Generate bechDec ms ⟨[route], ta, ms⟩ =
        .ok [⟨ms, tid, ri.destinationDomain, rec, a, .empty⟩]) := by
  constructor
  · intro msg hm
    have h := matchesRoute_amount bechDec msg route ri hri hm
    rwa [if_pos hov] at h
  · intro a tid rec ms ta hA hT hR
    simp [Generate, GenerateAux, hri, hA, hT, hR]

/-- The message matching `c1route` under the override: amount 500000. -/
def c1msg' : MsgRemoteTransfer :=
  { sender := "celestia1m", tokenId := List.replicate 32 1, destinationDomain := 973
  , recipient := List.replicate 12 0 ++ List.replicate 20 7, amount := 500000
  , customHookMetadata := .empty }

theorem amount_override_amended_witness :
    intToString (500000 : Int) = "500000" ∧
    Generate (fun _ => none) "celestia1m" ⟨[c1route], "1000000", "celestia1m"⟩ =
      .ok [⟨"celestia1m", List.replicate 32 1, 973
           , List.replicate 12 0 ++ List.replicate 20 7, 1000000, .empty⟩] :=
  ⟨(amount_override_amended (fun _ => none) c1route c1ri rfl (by decide)).1 c1msg' (by decide),
   (amount_override_amended (fun _ => none) c1route c1ri rfl (by decide)).2
     1000000 (List.replicate 32 1) (List.replicate 12 0 ++ List.replicate 20 7)
     "celestia1m" "1000000" (by decide) (by decide) (by decide)⟩

theorem parseCustomHookMetadata_ok_inv (b : Blob) (ri : RouteInfo)
    (h : ParseCustomHookMetadata b = .ok ri) :
    ri.destinationDomain ≠ 0 ∧ ri.recipient ≠ "" ∧ ri.tokenID ≠ "" := by
  cases b with
  | empty => cases h
  | malformed => cases h
  | obj d r t a =>
    simp only [ParseCustomHookMetadata] at h
    split_ifs at h with h0 hr ht
    injection h with h'
    subst h'
    exact ⟨h0, hr, ht⟩

theorem resolveRouteInfo_inv (transfer : HyperlaneTransfer) (ri : RouteInfo)
    (h : resolveRouteInfo transfer = some ri) :
    ri.destinationDomain ≠ 0 ∧
    (transfer.customHookMetadata ≠ Blob.empty → ri.recipient ≠ "" ∧ ri.tokenID ≠ "") := by
  unfold resolveRouteInfo at h
  split_ifs at h with hchm hdd
  · have hok : ParseCustomHookMetadata transfer.customHookMetadata = .ok ri := by
      cases hp : ParseCustomHookMetadata transfer.customHookMetadata with
      | ok v =>
        rw [hp] at h
        simp only [Except.toOption] at h
        injection h with h'
        rw [h']
      | error e =>
        rw [hp] at h
        simp only [Except.toOption] at h
        cases h
    obtain ⟨h0, hrec, htok⟩ := parseCustomHookMetadata_ok_inv _ _ hok
    exact ⟨h0, fun _ => ⟨hrec, htok⟩⟩
  · injection h with h'
    subst h'
    exact ⟨hdd, fun hc => absurd (not_not.mp hchm) hc⟩

theorem transferRoute_inv (config : Option Config) (ms : String)
    (tx : Transaction) (transfer : HyperlaneTransfer) (r : HyperlaneRoute)
    (h : transferRoute config ms tx transfer = some r) :
    ∃ ri, r.routeInfo = some ri ∧ r.customHookMetadata = transfer.customHookMetadata ∧
      resolveRouteInfo transfer = some ri := by
  unfold transferRoute at h
  split_ifs at h with hfrom
  cases hres : resolveRouteInfo transfer with
  | none =>
    rw [hres] at h
    cases h
  | some ri =>
    rw [hres] at h
    dsimp only at h
    split_ifs at h with hw hamt
    all_goals injection h with h'
    all_goals subst h'
    all_goals exact ⟨ri, rfl, rfl, rfl⟩

theorem parseRoutes_mem_inv (bechDec : String → Option (List Byte))
    (config : Option Config) (ms : String) (txs : List Transaction)
    (r : HyperlaneRoute)
    (hr : r ∈ (ParseRoutes bechDec config ms txs).routes) :
    ∃ tx transfer, transferRoute config ms tx transfer = some r := by
  simp only [ParseRoutes, List.mem_flatMap] at hr
  obtain ⟨tx, htx, hrt⟩ := hr
  simp only [txRoutes, List.mem_filterMap] at hrt
  obtain ⟨transfer, htr, heq⟩ := hrt
  exact ⟨tx, transfer, heq⟩

/-- Bank send carrying an amount, routed by a memo that names a
destination domain but neither recipient nor token id. -/
def c3tx : Transaction :=
  { hash := "TXBAD", blockHeight := 7, memo := .obj 2 "" "" ""
  , msgs := [.send { fromAddress := "celestia1alice", toAddress := "celestia1multisig"
                   , amount := [⟨"utia", 5⟩] }] }

/-- C3 counterexample: a route admitted to the RouteSet through the
memo fallback can carry an empty recipient and empty token id — the
RouteInfo validity invariant (recipient and tokenId non-empty) does not
hold for the memo-fallback path. -/
theorem parseRoutes_empty_recipient_cex :
    ((ParseRoutes (fun _ => none) none "celestia1multisig" [c3tx]).routes.map
      (fun r => r.routeInfo.map RouteInfo.recipient)) = [some ""] ∧
    ((ParseRoutes (fun _ => none) none "celestia1multisig" [c3tx]).routes.map
      (fun r => r.routeInfo.map RouteInfo.tokenID)) = [some ""] :=
  ⟨by decide, by decide⟩

/-- C3 amended: every route admitted by `ParseRoutes` has a non-null
RouteInfo with non-zero destination domain; the recipient and token id
are additionally non-empty whenever the route came from message-level
hook metadata, but not necessarily for memo-fallback routes. -/
theorem parseRoutes_routeInfo_invariant (bechDec : String → Option (List Byte))
    (config : Option Config) (ms : String) (txs : List Transaction)
    (r : HyperlaneRoute)
    (hr : r ∈ (ParseRoutes bechDec config ms txs).routes) :
    ∃ ri, r.routeInfo = some ri ∧ ri.destinationDomain ≠ 0 ∧
      (r.customHookMetadata ≠ Blob.empty → ri.recipient ≠ "" ∧ ri.tokenID ≠ "") := by
  obtain ⟨tx, transfer, heq⟩ := parseRoutes_mem_inv bechDec config ms txs r hr
  obtain ⟨ri, hri, hchm, hres⟩ := transferRoute_inv config ms tx transfer r heq
  obtain ⟨h0, himp⟩ := resolveRouteInfo_inv transfer ri hres
  refine ⟨ri, hri, h0, ?_⟩
  rw [hchm]
  exact himp

/-- Transaction whose single message is a remote transfer from the
multisig with well-formed hook metadata. -/
def c3tx' : Transaction :=
  { hash := "TXGOOD", blockHeight := 8, memo := .empty
  , msgs := [.remote { sender := "celestia1multisig", tokenId := List.replicate 32 1
                     , destinationDomain := 9, recipient := List.replicate 20 7, amount := 44
                     , customHookMetadata := .obj 9 "0xr" "0xt" "" }] }

/-- The route `ParseRoutes` admits from `c3tx'`. -/
def c3goodRoute : HyperlaneRoute :=
  { txHash := "TXGOOD", blockHeight := 8, fromAddress := "celestia1multisig"
  , amount := "44", denom := "utia", customHookMetadata := .obj 9 "0xr" "0xt" ""
  , routeInfo := some ⟨9, "0xr", "0xt", ""⟩ }

theorem parseRoutes_routeInfo_invariant_witness :
    ∃ ri, c3goodRoute.routeInfo = some ri ∧ ri.destinationDomain ≠ 0 ∧
      (c3goodRoute.customHookMetadata ≠ Blob.empty → ri.recipient ≠ "" ∧ ri.tokenID ≠ "") :=
  parseRoutes_routeInfo_invariant (fun _ => none) none "celestia1multisig" [c3tx']
    c3goodRoute (by decide)

/-- Whether a route passes the per-route check of the Verify loop:
RouteInfo present and some candidate message matches it. -/
def routeOk (bechDec : String → Option (List Byte))
    (remoteTxs : List MsgRemoteTransfer) (route : HyperlaneRoute) : Bool :=
  match route.routeInfo with
  | none => false
  | some _ => (remoteTxs.find? (fun msg => MatchesRoute bechDec msg route)).isSome

/-- The error entry the Verify loop appends for an indexed route, if any. -/
def errOf (bechDec : String → Option (List Byte))
    (remoteTxs : List MsgRemoteTransfer) (p : Nat × HyperlaneRoute) : Option VerifyError :=
  match p.2.routeInfo with
  | none => some (.noRouteInfo p.1 p.2.txHash)
  | some ri =>
    match remoteTxs.find? (fun msg => MatchesRoute bechDec msg p.2) with
    | some _ => none
    | none => some (.noMatch p.1 p.2.txHash ri.destinationDomain p.2.amount)

theorem errOf_eq_none_iff (bechDec : String → Option (List Byte))
    (remoteTxs : List MsgRemoteTransfer) (p : Nat × HyperlaneRoute) :
    errOf bechDec remoteTxs p = none ↔ routeOk bechDec remoteTxs p.2 = true := by
  unfold errOf routeOk
  cases hri : p.2.routeInfo with
  | none => simp
  | some ri =>
    cases hf : remoteTxs.find? (fun msg => MatchesRoute bechDec msg p.2) <;> simp

theorem verifyLoop_closed_form (bechDec : String → Option (List Byte))
    (remoteTxs : List MsgRemoteTransfer) (l : List (Nat × HyperlaneRoute))
    (res : VerifyResult) :
    VerifyLoop bechDec remoteTxs l res =
      { valid := res.valid && l.all (fun p => routeOk bechDec remoteTxs p.2)
      , matchedCount := res.matchedCount + l.countP (fun p => routeOk bechDec remoteTxs p.2)
      , totalRoutes := res.totalRoutes
      , errors := res.errors ++ l.filterMap (errOf bechDec remoteTxs)
      , warnings := res.warnings } := by
  induction l generalizing res with
  | nil => simp [VerifyLoop]
  | cons p rest ih =>
    obtain ⟨i, route⟩ := p
    cases hri : route.routeInfo with
    | none =>
      have hok : routeOk bechDec remoteTxs route = false := by
        simp [routeOk, hri]
      have herr : errOf bechDec remoteTxs (i, route) =
          some (.noRouteInfo i route.txHash) := by
        simp [errOf, hri]
      simp [VerifyLoop, hri, ih, hok, herr, List.append_assoc]
    | some ri =>
      cases hf : remoteTxs.find? (fun msg => MatchesRoute bechDec msg route) with
      | none =>
        have hok : routeOk bechDec remoteTxs route = false := by
          simp [routeOk, hri, hf]
        have herr : errOf bechDec remoteTxs (i, route) =
            some (.noMatch i route.txHash ri.destinationDomain route.amount) := by
          simp [errOf, hri, hf]
        simp [VerifyLoop, hri, hf, ih, hok, herr, List.append_assoc]
      | some m =>
        have hok : routeOk bechDec remoteTxs route = true := by
          simp [routeOk, hri, hf]
        have herr : errOf bechDec remoteTxs (i, route) = none := by
          simp [errOf, hri, hf]
        simp [VerifyLoop, hri, hf, ih, hok, herr]
        omega


/-- C5: for every RouteSet and candidate message list, the report of
Verify keeps validity, counts and errors consistent: valid is true iff
the matched count equals the total route count and the error list is
empty, and valid is false whenever the matched count falls short. -/
theorem verify_count_validity (bechDec : String → Option (List Byte))
    (routes : Routes) (remoteTxs : List MsgRemoteTransfer) :
    ((Verify bechDec routes remoteTxs).valid = true ↔
      ((Verify bechDec routes remoteTxs).matchedCount =
         (Verify bechDec routes remoteTxs).totalRoutes ∧
       (Verify bechDec routes remoteTxs).errors = [])) ∧
    ((Verify bechDec routes remoteTxs).matchedCount <
       (Verify bechDec routes remoteTxs).totalRoutes →
      (Verify bechDec routes remoteTxs).valid = false) := by
  have hlen : (routes.routes.enum).length = routes.routes.length := List.enum_length
  unfold Verify
  dsimp only
  by_cases hc : remoteTxs.length = routes.routes.length
  · rw [if_neg (not_not_intro hc), verifyLoop_closed_form]
    dsimp only
    simp only [Bool.true_and, Nat.zero_add, List.nil_append]
    constructor
    · constructor
      · intro hall
        have h1 : ∀ p ∈ routes.routes.enum, routeOk bechDec remoteTxs p.2 = true :=
          List.all_eq_true.mp hall
        constructor
        · exact (List.countP_eq_length.mpr h1).trans hlen
        · refine List.filterMap_eq_nil_iff.mpr ?_
          intro p hp
          exact (errOf_eq_none_iff bechDec remoteTxs p).mpr (h1 p hp)
      · rintro ⟨hcnt, -⟩
        refine List.all_eq_true.mpr ?_
        exact List.countP_eq_length.mp (hcnt.trans hlen.symm)
    · intro hlt
      cases hall : routes.routes.enum.all (fun p => routeOk bechDec remoteTxs p.2) with
      | false => rfl
      | true =>
        exfalso
        have hcp := List.countP_eq_length.mpr (List.all_eq_true.mp hall)
        omega
  · rw [if_pos hc, verifyLoop_closed_form]
    dsimp only
    simp


theorem all_enumFrom {α : Type} (q : α → Bool) (l : List α) :
    ∀ n, (List.enumFrom n l).all (fun p => q p.2) = l.all q := by
  induction l with
  | nil => intro n; rfl
  | cons a t ih => intro n; simp [List.enumFrom, List.all_cons, ih]

theorem routeOk_iff (bechDec : String → Option (List Byte))
    (remoteTxs : List MsgRemoteTransfer) (route : HyperlaneRoute) :
    routeOk bechDec remoteTxs route = true ↔
      ∃ ri, route.routeInfo = some ri ∧
        ∃ m ∈ remoteTxs, MatchesRoute bechDec m route = true := by
  unfold routeOk
  cases hri : route.routeInfo with
  | none => simp
  | some ri =>
    simp only [Option.some.injEq]
    rw [List.find?_isSome]
    constructor
    · intro h
      exact ⟨ri, rfl, h⟩
    · rintro ⟨ri', -, h⟩
      exact h

/-- C4 amended: with equal counts, Verify reports valid == true exactly
when every route has a RouteInfo and at least one candidate message
matching it under the first-match search; the same candidate message may
be counted as the match for several routes (no distinctness is
enforced). -/
theorem verify_valid_iff_each_route_matched (bechDec : String → Option (List Byte))
    (routes : Routes) (remoteTxs : List MsgRemoteTransfer)
    (hcount : remoteTxs.length = routes.routes.length) :
    (Verify bechDec routes remoteTxs).valid = true ↔
      ∀ r ∈ routes.routes, ∃ ri, r.routeInfo = some ri ∧
        ∃ m ∈ remoteTxs, MatchesRoute bechDec m r = true := by
  unfold Verify
  dsimp only
  rw [if_neg (not_not_intro hcount), verifyLoop_closed_form]
  dsimp only
  simp only [Bool.true_and]
  rw [show routes.routes.enum = List.enumFrom 0 routes.routes from rfl,
    all_enumFrom, List.all_eq_true]
  constructor
  · intro h r hr
    exact (routeOk_iff bechDec remoteTxs r).mp (h r hr)
  · intro h r hr
    exact (routeOk_iff bechDec remoteTxs r).mpr (h r hr)


theorem parseRoutes_append (bechDec : String → Option (List Byte))
    (config : Option Config) (ms : String) (xs ys : List Transaction) :
    (ParseRoutes bechDec config ms (xs ++ ys)).routes =
      (ParseRoutes bechDec config ms xs).routes ++
      (ParseRoutes bechDec config ms ys).routes := by
  simp [ParseRoutes, FilterHyperlaneTransfersToAddress, List.filter_append,
    List.flatMap_append]

theorem parseRoutes_singleton_decomp (bechDec : String → Option (List Byte))
    (config : Option Config) (ms : String) (txs : List Transaction) :
    (ParseRoutes bechDec config ms txs).routes =
      txs.flatMap (fun t => (ParseRoutes bechDec config ms [t]).routes) := by
  induction txs with
  | nil => rfl
  | cons t ts ih =>
    rw [show t :: ts = [t] ++ ts from rfl, parseRoutes_append, ih]
    simp

theorem flatMap_length_ones {α β : Type} (f : α → List β) (l : List α)
    (h : ∀ a ∈ l, (f a).length = 1) : (l.flatMap f).length = l.length := by
  induction l with
  | nil => rfl
  | cons a t ih =>
    simp only [List.flatMap_cons, List.length_append, List.length_cons]
    rw [h a (by simp), ih (fun x hx => h x (by simp [hx]))]
    omega

theorem badTx_no_routes (bechDec : String → Option (List Byte))
    (config : Option Config) (ms : String) (b : Transaction)
    (hb : ∀ tr ∈ ExtractHyperlaneTransfers b,
      tr.customHookMetadata = Blob.malformed ∨
      (∃ c, config = some c ∧ ∃ ri, resolveRouteInfo tr = some ri ∧
        ∃ e, ValidateRoute c ri = .error e)) :
    (ParseRoutes bechDec config ms [b]).routes = [] := by
  have htx : txRoutes config ms b = [] := by
    refine List.filterMap_eq_nil_iff.mpr ?_
    intro tr htr
    unfold transferRoute
    split_ifs with hfrom
    · rfl
    · rcases hb tr htr with hmal | ⟨c, hcfg, ri, hres, e, he⟩
      · have hres : resolveRouteInfo tr = none := by
          unfold resolveRouteInfo
          rw [hmal]
          simp [ParseCustomHookMetadata, Except.toOption]
        rw [hres]
      · rw [hres]
        dsimp only
        simp [hcfg, he]
  unfold ParseRoutes FilterHyperlaneTransfersToAddress
  dsimp only
  refine List.flatMap_eq_nil_iff.mpr ?_
  intro x hx
  have hxb : x = b := by simpa using List.mem_of_mem_filter hx
  rw [hxb, htx]

/-- C8: ParseRoutes treats every per-message problem as
skip-and-continue: in a batch where each listed transaction otherwise
yields one route, a transaction whose routing metadata fails to parse
(or whose resolved route the whitelist rejects) loses only its own
route — the batch still yields the other N−1 routes, and after the
height query there is no fatal path at all (`ParseRoutes` is total). -/
theorem extraction_skip_and_continue (bechDec : String → Option (List Byte))
    (config : Option Config) (ms : String)
    (txs1 txs2 : List Transaction) (b : Transaction)
    (h1 : ∀ t ∈ txs1, ((ParseRoutes bechDec config ms [t]).routes).length = 1)
    (h2 : ∀ t ∈ txs2, ((ParseRoutes bechDec config ms [t]).routes).length = 1)
    (hb : ∀ tr ∈ ExtractHyperlaneTransfers b,
      tr.customHookMetadata = Blob.malformed ∨
      (∃ c, config = some c ∧ ∃ ri, resolveRouteInfo tr = some ri ∧
        ∃ e, ValidateRoute c ri = .error e)) :
    ((ParseRoutes bechDec config ms (txs1 ++ b :: txs2)).routes).length =
      txs1.length + txs2.length := by
  rw [show txs1 ++ b :: txs2 = (txs1 ++ [b]) ++ txs2 by simp, parseRoutes_append,
    parseRoutes_append, badTx_no_routes bechDec config ms b hb,
    parseRoutes_singleton_decomp bechDec config ms txs1,
    parseRoutes_singleton_decomp bechDec config ms txs2]
  simp [flatMap_length_ones _ txs1 h1, flatMap_length_ones _ txs2 h2]

theorem lookup_map_snd (d : Nat) (l : List (Nat × List String)) :
    (l.map (fun p => (p.1, p.2.map normalizeAddress))).lookup d =
      (l.lookup d).map (List.map normalizeAddress) := by
  induction l with
  | nil => rfl
  | cons p rest ih =>
    obtain ⟨k, v⟩ := p
    by_cases hk : d = k
    · simp [List.lookup, hk]
    · have hbeq : (d == k) = false := by simp [hk]
      simp [List.lookup, hbeq, ih]

/-- C7: on a loaded (normalized) whitelist, ValidateRoute fails with
unknown-domain when the destination domain has no entry, with
empty-whitelist when the entry is an empty list, with not-whitelisted
when the normalized recipient is absent from a non-empty entry, and
succeeds when some whitelisted address normalizes to the same string as
the recipient — in particular an address whitelisted in one letter case
validates in any other case. -/
theorem validateRoute_spec (raw : Config) (route : RouteInfo) :
    (raw.whitelist.domains.lookup route.destinationDomain = none →
      ValidateRoute (loadConfig raw) route =
        .error (.unknownDomain route.destinationDomain)) ∧
    (raw.whitelist.domains.lookup route.destinationDomain = some [] →
      ValidateRoute (loadConfig raw) route =
        .error (.emptyWhitelist route.destinationDomain)) ∧
    (∀ l, raw.whitelist.domains.lookup route.destinationDomain = some l →
      l ≠ [] →
      (l.map normalizeAddress).contains (normalizeAddress route.recipient) = false →
      ValidateRoute (loadConfig raw) route =
        .error (.notWhitelisted route.recipient route.destinationDomain)) ∧
    (∀ l s, raw.whitelist.domains.lookup route.destinationDomain = some l →
      s ∈ l → normalizeAddress s = normalizeAddress route.recipient →
      ValidateRoute (loadConfig raw) route = .ok ()) := by
  have hload : (loadConfig raw).whitelist.domains =
      raw.whitelist.domains.map (fun p => (p.1, p.2.map normalizeAddress)) := rfl
  refine ⟨?_, ?_, ?_, ?_⟩
  · intro h
    unfold ValidateRoute
    rw [hload, lookup_map_snd, h]
    rfl
  · intro h
    unfold ValidateRoute
    rw [hload, lookup_map_snd, h]
    simp
  · intro l h hne hc
    unfold ValidateRoute
    rw [hload, lookup_map_snd, h]
    have hlen : ¬ (l.map normalizeAddress).length = 0 := by
      simp [hne]
    dsimp only [Option.map]
    rw [if_neg hlen, if_neg (by rw [hc]; exact Bool.false_ne_true)]
  · intro l s h hs hnorm
    unfold ValidateRoute
    rw [hload, lookup_map_snd, h]
    have hmem : normalizeAddress route.recipient ∈ l.map normalizeAddress :=
      hnorm ▸ List.mem_map_of_mem normalizeAddress hs
    have hlen : ¬ (l.map normalizeAddress).length = 0 := by
      simp [List.ne_nil_of_mem hs]
    dsimp only [Option.map]
    rw [if_neg hlen, if_pos (List.elem_eq_true_of_mem hmem)]

/-- Raw (pre-normalization) whitelist configuration for the C7 witness:
domain 1 whitelists a mixed-case address, domain 3 has an empty list. -/
def w7raw : Config := ⟨⟨[(1, ["0xABCdef"]), (3, [])]⟩⟩

theorem validateRoute_spec_witness :
    ValidateRoute (loadConfig w7raw) ⟨2, "0xabc", "t", ""⟩ = .error (.unknownDomain 2) ∧
    ValidateRoute (loadConfig w7raw) ⟨3, "0xabc", "t", ""⟩ = .error (.emptyWhitelist 3) ∧
    ValidateRoute (loadConfig w7raw) ⟨1, "0x999", "t", ""⟩ =
      .error (.notWhitelisted "0x999" 1) ∧
    ValidateRoute (loadConfig w7raw) ⟨1, "0xabcDEF", "t", ""⟩ = .ok () :=
  ⟨(validateRoute_spec w7raw ⟨2, "0xabc", "t", ""⟩).1 (by decide),
   (validateRoute_spec w7raw ⟨3, "0xabc", "t", ""⟩).2.1 (by decide),
   (validateRoute_spec w7raw ⟨1, "0x999", "t", ""⟩).2.2.1 ["0xABCdef"]
     (by decide) (by decide) (by decide),
   (validateRoute_spec w7raw ⟨1, "0xabcDEF", "t", ""⟩).2.2.2 ["0xABCdef"] "0xABCdef"
     (by decide) (by decide) (by decide)⟩

/-- Route matched (under the base amount, no override) by `c4m1` but not
by `c4m2`. -/
def c4r : HyperlaneRoute :=
  { txHash := "T", blockHeight := 1, fromAddress := "m", amount := "100"
  , denom := "utia", customHookMetadata := .empty, routeInfo := some ⟨1, "", "", ""⟩ }

/-- Candidate message matching `c4r`. -/
def c4m1 : MsgRemoteTransfer :=
  { sender := "m", tokenId := [], destinationDomain := 1, recipient := [], amount := 100
  , customHookMetadata := .empty }

/-- Candidate message matching no route (wrong destination domain). -/
def c4m2 : MsgRemoteTransfer :=
  { sender := "m", tokenId := [], destinationDomain := 999, recipient := [], amount := 100
  , customHookMetadata := .empty }

/-- C4 counterexample: two routes and two candidate messages with equal
counts where both routes are matched by the same first message while the
second message matches nothing — Verify still reports valid == true, so
valid does not certify a 1:1 correspondence with distinct messages. -/
theorem verify_no_distinct_matching_cex :
    (Verify (fun _ => none) ⟨[c4r, c4r], "200", "m"⟩ [c4m1, c4m2]).valid = true ∧
    ¬ ∃ f : Fin 2 → Fin 2, Function.Injective f ∧
        ∀ i, MatchesRoute (fun _ => none) ([c4m1, c4m2].get (f i))
          ([c4r, c4r].get i) = true :=
  ⟨by decide, by decide⟩

theorem verify_valid_iff_each_route_matched_witness :
    (Verify (fun _ => none) ⟨[c4r], "100", "m"⟩ [c4m1]).valid = true ↔
      ∀ r ∈ [c4r], ∃ ri, r.routeInfo = some ri ∧
        ∃ m ∈ [c4m1], MatchesRoute (fun _ => none) m r = true :=
  verify_valid_iff_each_route_matched (fun _ => none) ⟨[c4r], "100", "m"⟩ [c4m1] rfl

theorem verify_count_validity_witness :
    (Verify (fun _ => none) ⟨[c4r], "100", "m"⟩ []).valid = false :=
  (verify_count_validity (fun _ => none) ⟨[c4r], "100", "m"⟩ []).2 (by decide)

/-- Transaction whose single message is a remote transfer from the
multisig with hook metadata that is not valid JSON. -/
def c8bad : Transaction :=
  { hash := "TXB", blockHeight := 9, memo := .empty
  , msgs := [.remote { sender := "celestia1multisig", tokenId := List.replicate 32 1
                     , destinationDomain := 9, recipient := List.replicate 20 7, amount := 5
                     , customHookMetadata := .malformed }] }

theorem extraction_skip_and_continue_witness :
    ((ParseRoutes (fun _ => none) none "celestia1multisig"
        [c3tx', c8bad]).routes).length = 1 :=
  extraction_skip_and_continue (fun _ => none) none "celestia1multisig"
    [c3tx'] [] c8bad
    (by intro t ht; rw [List.mem_singleton.mp ht]; decide)
    (by intro t ht; cases ht)
    (by
      intro tr htr
      left
      have h := List.mem_singleton.mp (show tr ∈
        [(⟨"celestia1multisig", "0x" ++ hexEncode (List.replicate 20 7), intToString 5, 9,
           "0x" ++ hexEncode (List.replicate 32 1), Blob.malformed⟩ : HyperlaneTransfer)]
        from htr)
      rw [h])

end Rebalancer
